import Mathlib

set_option maxHeartbeats 1600000
set_option maxRecDepth 8000

/-!
Shallow embedding of the birthday-to-calendar pipeline of this repository
(`src/cardDavReader.js` and `src/server.js`).

Dates are modelled date-only (year, month, day): every `dayjs` value the
program builds from a birthday string sits at local midnight of a fixed-offset
timezone, and the only time-sensitive comparison in the code,
`isBefore(today, 'day')`, compares calendar days.  Timestamp differences used
by `dayjs`'s `diff(.., 'years')` are therefore whole numbers of days and are
modelled by proleptic-Gregorian day numbers.  JavaScript floating-point
division inside `monthDiff` is modelled by exact rational arithmetic carried
as an integer numerator/denominator pair.
-/

/-- A calendar date: the date-only part of a `dayjs` value (year, month 1–12, day). -/
structure DDate where
  year : Int
  month : Int
  day : Int
deriving DecidableEq

/-- Gregorian leap-year test, as `dayjs`/JavaScript `Date` implement it.
For the nonnegative years that occur in the program, `Int.emod` agrees with
the JavaScript `%` operator. -/
def isLeapYear (y : Int) : Bool := y % 4 == 0 && (y % 100 != 0 || y % 400 == 0)

/-- Number of days in month `m` of year `y` (`dayjs().daysInMonth()`). -/
def daysInMonth (y m : Int) : Int :=
  if m = 2 then (if isLeapYear y then 29 else 28)
  else if m = 4 ∨ m = 6 ∨ m = 9 ∨ m = 11 then 30
  else 31

/-- Days from the start of year `y` up to the first day of month `m`. -/
def daysBeforeMonth (y m : Int) : Int :=
  let base :=
    if m = 1 then 0
    else if m = 2 then 31
    else if m = 3 then 59
    else if m = 4 then 90
    else if m = 5 then 120
    else if m = 6 then 151
    else if m = 7 then 181
    else if m = 8 then 212
    else if m = 9 then 243
    else if m = 10 then 273
    else if m = 11 then 304
    else 334
  if 3 ≤ m ∧ isLeapYear y = true then base + 1 else base

/-- Proleptic Gregorian day number of a date (0001-01-01 ↦ 1).  This is the
date-only abstraction of a JavaScript timestamp: two midnight timestamps in a
fixed-offset zone differ by `86400000 ·` the difference of their day numbers. -/
def toDays (a : DDate) : Int :=
  365 * (a.year - 1) + (a.year - 1).fdiv 4 - (a.year - 1).fdiv 100 + (a.year - 1).fdiv 400
    + daysBeforeMonth a.year a.month + a.day

/-- Inverse of `toDays`: the civil date of a proleptic Gregorian day number
(Howard Hinnant's `civil_from_days`, shifted to the 0001-01-01 ↦ 1 epoch). -/
def ofDays (n : Int) : DDate :=
  let z := n + 305
  let era := z.fdiv 146097
  let doe := z - era * 146097
  let yoe := (doe - doe.fdiv 1460 + doe.fdiv 36524 - doe.fdiv 146096).fdiv 365
  let y := yoe + era * 400
  let doy := doe - (365 * yoe + yoe.fdiv 4 - yoe.fdiv 100)
  let mp := (5 * doy + 2).fdiv 153
  let d := doy - (153 * mp + 2).fdiv 5 + 1
  let m := if mp < 10 then mp + 3 else mp - 9
  if m ≤ 2 then ⟨y + 1, m, d⟩ else ⟨y, m, d⟩

/-- The date built by JavaScript `new Date(y, m - 1, d)` (as used by the
`dayjs` string parser): out-of-range months and days roll over. -/
def mkDate (y m d : Int) : DDate :=
  let mi := y * 12 + (m - 1)
  let y' := mi.fdiv 12
  let m' := mi.fmod 12 + 1
  ofDays (toDays ⟨y', m', 1⟩ + (d - 1))

/-- `dayjs#isBefore(that, 'day')`: date-only (lexicographic) comparison.
With both values at local midnight, `this.endOf('day') < that` holds exactly
when `this`'s calendar day precedes `that`'s. -/
def beforeDay (a b : DDate) : Bool :=
  decide (a.year < b.year ∨
    (a.year = b.year ∧ (a.month < b.month ∨ (a.month = b.month ∧ a.day < b.day))))

/-- `dayjs#add(1, 'year')`: the year is incremented and the day is clamped to
the (possibly shorter) same month of the new year (so Feb 29 + 1 year =
Feb 28). -/
def addYear (c : DDate) : DDate :=
  ⟨c.year + 1, c.month, min c.day (daysInMonth (c.year + 1) c.month)⟩

/-- `dayjs#add(n, 'month')` (used inside `diff`): months are added on the
month index and the day is clamped into the resulting month. -/
def addMonths (a : DDate) (n : Int) : DDate :=
  let mi := a.year * 12 + (a.month - 1) + n
  let y' := mi.fdiv 12
  let m' := mi.fmod 12 + 1
  ⟨y', m', min a.day (daysInMonth y' m')⟩

/-- `dayjs#add(n, 'day')`. -/
def addDays (a : DDate) (n : Int) : DDate := ofDays (toDays a + n)

/-- The `while (nextBirthday.isBefore(today, 'day'))` loop of `getNextBirthday`
(src/cardDavReader.js lines 24–26), with an explicit fuel bound; the result
pairs the final candidate with the number of `add(1, 'year')` steps taken.
`occFuel` below always supplies enough fuel for the loop to reach its true
fixpoint, so this equals the unbounded source loop. -/
def nextLoop (today : DDate) : Nat → DDate → DDate × Nat
  | 0, c => (c, 0)
  | fuel + 1, c =>
    if beforeDay c today then
      let p := nextLoop today fuel (addYear c)
      (p.1, p.2 + 1)
    else (c, 0)

/-- Fuel sufficient for `nextLoop`: once the candidate's year exceeds
`today.year` the loop condition is false. -/
def occFuel (today bd : DDate) : Nat := (today.year + 1 - bd.year).toNat

/-- The occurrence computation of `getNextBirthday` after the birthday string
has been parsed: the next-birthday date together with the number of
year-advancement steps. -/
def nextOccurrence (today bd : DDate) : DDate × Nat :=
  nextLoop today (occFuel today bd) bd

/-- JavaScript `absFloor` (`Math.ceil` for negatives, `Math.floor` otherwise)
applied to the exact rational `p / q`, for `q > 0`. -/
def jsAbsFloorDiv (p q : Int) : Int :=
  if p < 0 then -((-p).fdiv q) else p.fdiv q

/-- Numerator and denominator of `dayjs`'s `monthDiff(a, b)` in the
`a.date() ≥ b.date()` case: `-(whole + (b - anchor)/(anchor2 - anchor))`,
with timestamps replaced by day numbers (the `86400000` factors cancel).
The denominator is positive in every reachable case; the value represented
is `num / den`. -/
def monthDiffCore (a b : DDate) : Int × Int :=
  let w := (b.year - a.year) * 12 + (b.month - a.month)
  let anchor := addMonths a w
  let n := toDays b - toDays anchor
  if n < 0 then
    let anchor2 := addMonths a (w - 1)
    let den := toDays anchor - toDays anchor2
    (-(w * den + n), den)
  else
    let anchor2 := addMonths a (w + 1)
    let den := toDays anchor2 - toDays anchor
    (-(w * den + n), den)

/-- `dayjs`'s `monthDiff(a, b)` with its initial swap when `a.date() < b.date()`. -/
def monthDiffNumDen (a b : DDate) : Int × Int :=
  if a.day < b.day then
    let p := monthDiffCore b a
    (-p.1, p.2)
  else monthDiffCore a b

/-- `a.diff(b, 'years')` in `dayjs`: `absFloor(monthDiff(a, b) / 12)`. -/
def diffYears (a b : DDate) : Int :=
  let p := monthDiffNumDen a b
  jsAbsFloorDiv p.1 (12 * p.2)

/-- The `age` field returned by `getNextBirthday`
(`nextBirthday.diff(birthdayDate, 'years')`, line 27). -/
def ageOf (today bd : DDate) : Int :=
  diffYears (nextOccurrence today bd).1 bd

/-- Whether character list `p` is an initial run of `l`. -/
def leadMatch : List Char → List Char → Bool
  | [], _ => true
  | _ :: _, [] => false
  | p :: ps, c :: cs => p == c && leadMatch ps cs

/-- JavaScript `String#includes(pat)`: `pat` occurs somewhere in `l`. -/
def findSub (pat : List Char) : List Char → Bool
  | [] => leadMatch pat []
  | c :: cs => leadMatch pat (c :: cs) || findSub pat cs

/-- `String#includes` on Lean strings. -/
def jsIncludes (s pat : String) : Bool := findSub pat.toList s.toList

/-- Number of positions of `l` at which `pat` starts. -/
def countSub (pat : List Char) : List Char → Nat
  | [] => 0
  | c :: cs => (if leadMatch pat (c :: cs) then 1 else 0) + countSub pat cs

/-- JavaScript `String#startsWith`. -/
def strStarts (s pat : String) : Bool := leadMatch pat.toList s.toList

/-- Whether `s` ends with `pat`. -/
def strEnds (s pat : String) : Bool := leadMatch pat.toList.reverse s.toList.reverse

/-- JavaScript `String#substr(start, len)`. -/
def jsSubstr (s : String) (start len : Nat) : String :=
  String.mk ((s.toList.drop start).take len)

/-- JavaScript `String#trim`. -/
def jsTrim (s : String) : String :=
  String.mk ((((s.toList.dropWhile Char.isWhitespace).reverse).dropWhile Char.isWhitespace).reverse)

/-- The next `n` characters are ASCII digits. -/
def digitRun : Nat → List Char → Bool
  | 0, _ => true
  | _ + 1, [] => false
  | n + 1, c :: cs => c.isDigit && digitRun n cs

/-- Numeric value of a digit string. -/
def digitsVal (l : List Char) : Int :=
  l.foldl (fun a c => a * 10 + Int.ofNat (c.toNat - 48)) 0

/-- The capture alternation of `bdayRegex` (src/cardDavReader.js line 67),
`\d{8}|--\d{4}|\d{4}-\d{2}-\d{2}`, tried in source order at one position:
the captured characters, or `none` if no alternative matches here. -/
def bdayAltCapture (l : List Char) : Option (List Char) :=
  if digitRun 8 l then some (l.take 8)
  else if leadMatch ['-', '-'] l && digitRun 4 (l.drop 2) then some (l.take 6)
  else if digitRun 4 l && leadMatch ['-'] (l.drop 4) && digitRun 2 (l.drop 5)
      && leadMatch ['-'] (l.drop 7) && digitRun 2 (l.drop 8) then some (l.take 10)
  else none

/-- Prefix shape `\d{4}-\d{2}-\d{2}` (the third alternative of `bdayRegex`). -/
def isoShape : List Char → Bool
  | c0 :: c1 :: c2 :: c3 :: h1 :: c5 :: c6 :: h2 :: c8 :: c9 :: _ =>
    c0.isDigit && c1.isDigit && c2.isDigit && c3.isDigit && h1 == '-' &&
    c5.isDigit && c6.isDigit && h2 == '-' && c8.isDigit && c9.isDigit
  | _ => false

/-- First match of `bdayRegex` over the whole vCard text: scan left to right
for `BDAY`, optionally `;VALUE=date`, then `:`, then the capture alternation;
a position where the alternation fails is skipped, as regex backtracking does. -/
def bdayCapture : List Char → Option (List Char)
  | [] => none
  | c :: cs =>
    if leadMatch "BDAY;VALUE=date:".toList (c :: cs) then
      match bdayAltCapture ((c :: cs).drop 16) with
      | some r => some r
      | none => bdayCapture cs
    else if leadMatch "BDAY:".toList (c :: cs) then
      match bdayAltCapture ((c :: cs).drop 5) with
      | some r => some r
      | none => bdayCapture cs
    else bdayCapture cs

/-- First match of `fnRegex` (`FN:(.+)`): the rest of the line after the first
`FN:` that is followed by at least one non-line-terminator character. -/
def fnCapture : List Char → Option (List Char)
  | [] => none
  | c :: cs =>
    if leadMatch "FN:".toList (c :: cs) then
      let line := ((c :: cs).drop 3).takeWhile (fun ch => ch != '\n' && ch != '\r')
      if line.isEmpty then fnCapture cs else some line
    else fnCapture cs

/-- The reformatting of the captured birthday value
(src/cardDavReader.js lines 78–87).  A capture containing `-` is passed
through unchanged — note this also catches `--MMDD`, so the middle branch is
unreachable; it is kept for fidelity. -/
def reformatBday (cap : String) : String :=
  if jsIncludes cap "-" then cap
  else if strStarts cap "--" then
    "--" ++ jsSubstr cap 2 2 ++ "-" ++ jsSubstr cap 4 2
  else jsSubstr cap 0 4 ++ "-" ++ jsSubstr cap 4 2 ++ "-" ++ jsSubstr cap 6 2

/-- The `dayjs(string)` parser restricted to the shapes reachable from the
`BDAY` capture pipeline: `\d{8}` (read as YYYYMMDD) and `\d{4}-\d{2}-\d{2}`,
both normalised through JavaScript `Date` rollover; anything else — in the
program only the empty string — is an Invalid Date, modelled as `none`. -/
def parseDayjs (s : String) : Option DDate :=
  let l := s.toList
  if l.length == 8 && digitRun 8 l then
    some (mkDate (digitsVal (l.take 4)) (digitsVal ((l.drop 4).take 2)) (digitsVal (l.drop 6)))
  else if l.length == 10 && digitRun 4 l && leadMatch ['-'] (l.drop 4) && digitRun 2 (l.drop 5)
      && leadMatch ['-'] (l.drop 7) && digitRun 2 (l.drop 8) then
    some (mkDate (digitsVal (l.take 4)) (digitsVal ((l.drop 5).take 2)) (digitsVal (l.drop 8)))
  else none

/-- `getNextBirthday(bdayString)` (src/cardDavReader.js lines 14–28), with the
ambient `dayjs()` clock passed explicitly as `today`.  Returns the pair
(`nextBirthday`, `age`); an unparsable string gives JavaScript an Invalid
Date and a NaN age, modelled as (`none`, `none`). -/
def getNextBirthday (today : DDate) (bdayString : String) : Option DDate × Option Int :=
  let birthday :=
    if strStarts bdayString "--" then
      toString today.year ++ jsSubstr bdayString 2 2 ++ jsSubstr bdayString 4 2
    else bdayString
  match parseDayjs birthday with
  | some bd => (some (nextOccurrence today bd).1, some (ageOf today bd))
  | none => (none, none)

/-- One element of the `contacts` array built by `fetchContacts`. -/
structure Contact where
  fullName : String
  birthday : String
  nextBirthday : Option DDate
  age : Option Int
deriving DecidableEq

/-- The per-record body of `fetchContacts`'s loop
(src/cardDavReader.js lines 63–94): a record whose text contains `BDAY` is
pushed (with empty birthday string when the regex finds no capture); any
other record is skipped. -/
def processVCard (today : DDate) (v : String) : Option Contact :=
  if jsIncludes v "BDAY" then
    let fullName :=
      match fnCapture v.toList with
      | some l => jsTrim (String.mk l)
      | none => ""
    let birthday :=
      match bdayCapture v.toList with
      | some cap => reformatBday (String.mk cap)
      | none => ""
    let p := getNextBirthday today birthday
    some ⟨fullName, birthday, p.1, p.2⟩
  else none

/-- The contact list produced by a successful directory fetch, with the
nested address-book iteration flattened to one list of vCard texts. -/
def fetchContactsModel (today : DDate) (records : List String) : List Contact :=
  records.filterMap (processVCard today)

/-- Two-digit zero-padding used when rendering a date into a feed line. -/
def pad2 (n : Int) : String := if 0 ≤ n ∧ n < 10 then "0" ++ toString n else toString n

/-- A date rendered as an 8-character `YYYYMMDD` stamp. -/
def dateStamp (a : DDate) : String := toString a.year ++ pad2 a.month ++ pad2 a.day

/-- Rendering of a possibly-invalid date; JavaScript stringifies the
components of an Invalid Date as `NaN`. -/
def dateStampOpt : Option DDate → String
  | some a => dateStamp a
  | none => "NaN"

/-- The event attribute object built for one contact inside `getICSString`
(src/cardDavReader.js lines 116–138): title and description templates, the
all-day start, the end one day later, CONFIRMED status, a display alarm on
the start day at 08:00, and the fixed calendar name. -/
structure EventAttrs where
  title : String
  description : String
  start : Option DDate
  endDate : Option DDate
  alarmDate : Option DDate
  status : String
  calName : String
deriving DecidableEq

/-- The `contacts.map` body of `getICSString`. -/
def eventOf (c : Contact) : EventAttrs :=
  let ageStr :=
    match c.age with
    | some k => toString k
    | none => "NaN"
  { title := "🎁 " ++ c.fullName ++ " (wird " ++ ageStr ++ " Jahre)"
    description := "🎁 Geburtstag von " ++ c.fullName ++ " (wird " ++ ageStr ++ " Jahre)"
    start := c.nextBirthday
    endDate := c.nextBirthday.map (fun d => addDays d 1)
    alarmDate := c.nextBirthday
    status := "CONFIRMED"
    calName := "Geburtstage" }

/-- One serialized `VEVENT` block for an event attribute object. -/
def eventText (e : EventAttrs) : String :=
  "BEGIN:VEVENT\r\n"
    ++ "SUMMARY:" ++ e.title ++ "\r\n"
    ++ "DESCRIPTION:" ++ e.description ++ "\r\n"
    ++ "DTSTART;VALUE=DATE:" ++ dateStampOpt e.start ++ "\r\n"
    ++ "DTEND;VALUE=DATE:" ++ dateStampOpt e.endDate ++ "\r\n"
    ++ "STATUS:" ++ e.status ++ "\r\n"
    ++ "BEGIN:VALARM\r\nACTION:DISPLAY\r\nTRIGGER;VALUE=DATE-TIME:"
    ++ dateStampOpt e.alarmDate ++ "T080000\r\nEND:VALARM\r\n"
    ++ "END:VEVENT\r\n"

/-- Modelled from the spec: the serializer of the external `ics` library
(`ics.createEvents`), a dependency whose source is not part of this
repository.  Per §4.4 of the spec it emits a valid calendar-interchange
document — `BEGIN:VCALENDAR` wrapper with the fixed calendar name — holding
one `VEVENT` per occurrence, and an event-free document for an empty list. -/
def createEventsModel (es : List EventAttrs) : String :=
  "BEGIN:VCALENDAR\r\nVERSION:2.0\r\nX-WR-CALNAME:Geburtstage\r\n"
    ++ String.join (es.map eventText)
    ++ "END:VCALENDAR\r\n"

/-- `getICSString(contacts)` (src/cardDavReader.js lines 115–139): map each
contact to an event attribute object and serialize. -/
def getICSStringModel (cs : List Contact) : String :=
  createEventsModel (cs.map eventOf)

/-- Outcome of the directory fetch attempted inside `fetchContacts`. -/
inductive FetchOutcome where
  | ok (records : List String)
  | err
deriving DecidableEq

/-- `fetchContacts` seen from its caller: the whole body is wrapped in
`try/catch` and the catch returns `[]` (src/cardDavReader.js lines 100–103),
so a failed directory fetch resolves successfully with an empty list. -/
def fetchContactsTop (today : DDate) : FetchOutcome → List Contact
  | .ok records => fetchContactsModel today records
  | .err => []

/-- `updateCache` (src/server.js lines 16–25): `fetchContacts` never rejects,
so the `.then` branch always runs and unconditionally overwrites the cached
feed with the serialization of whatever contact list was returned. -/
def updateCache (today : DDate) (o : FetchOutcome) (_cache : Option String) : Option String :=
  some (getICSStringModel (fetchContactsTop today o))

/-- The feed route (src/server.js lines 41–49): the cached string when
present, otherwise a 404 body. -/
def calendarRoute (cache : Option String) : String :=
  match cache with
  | some s => s
  | none => "Calendar not found"


theorem beforeDay_iff (a b : DDate) :
    beforeDay a b = true ↔
      (a.year < b.year ∨
        (a.year = b.year ∧ (a.month < b.month ∨ (a.month = b.month ∧ a.day < b.day)))) := by
  simp [beforeDay]

theorem daysInMonth_lb (y m : Int) : 28 ≤ daysInMonth y m ∧ daysInMonth y m ≤ 31 := by
  unfold daysInMonth
  split_ifs <;> omega

theorem daysInMonth_eq_of_ne_two (y y' m : Int) (h : m ≠ 2) :
    daysInMonth y m = daysInMonth y' m := by
  unfold daysInMonth
  split_ifs <;> omega

theorem daysInMonth_ge (yb m d : Int) (hd : d ≤ daysInMonth yb m) (hne : ¬ (m = 2 ∧ d = 29)) :
    ∀ y : Int, d ≤ daysInMonth y m := by
  intro y
  by_cases hm : m = 2
  · subst hm
    have h2 : daysInMonth yb 2 ≤ 29 := by unfold daysInMonth; split_ifs <;> omega
    have h3 : 28 ≤ daysInMonth y 2 := by unfold daysInMonth; split_ifs <;> omega
    omega
  · rw [daysInMonth_eq_of_ne_two y yb m hm]
    exact hd

theorem addYear_noClamp (y m d : Int) (H : ∀ y' : Int, d ≤ daysInMonth y' m) :
    addYear ⟨y, m, d⟩ = ⟨y + 1, m, d⟩ := by
  simp [addYear, min_eq_left (H (y + 1))]

theorem nextLoop_spec (today : DDate) (m d : Int) (H : ∀ y' : Int, d ≤ daysInMonth y' m) :
    ∀ (fuel : Nat) (y0 : Int), today.year < y0 + fuel →
      (nextLoop today fuel ⟨y0, m, d⟩).1 = ⟨y0 + (nextLoop today fuel ⟨y0, m, d⟩).2, m, d⟩ ∧
      beforeDay (nextLoop today fuel ⟨y0, m, d⟩).1 today = false ∧
      ∀ j : Nat, j < (nextLoop today fuel ⟨y0, m, d⟩).2 → beforeDay ⟨y0 + j, m, d⟩ today = true := by
  intro fuel
  induction fuel with
  | zero =>
    intro y0 hy
    simp only [nextLoop, Nat.cast_zero, Int.add_zero]
    refine ⟨by simp, ?_, by omega⟩
    have : ¬ (today.year < y0 + ((0 : Nat) : Int)) → True := fun _ => trivial
    rw [Bool.eq_false_iff]
    intro hb
    rw [beforeDay_iff] at hb
    simp only at hb
    push_cast at hy
    omega
  | succ fuel ih =>
    intro y0 hy
    by_cases hb : beforeDay ⟨y0, m, d⟩ today = true
    · have hstep : addYear ⟨y0, m, d⟩ = ⟨y0 + 1, m, d⟩ := addYear_noClamp y0 m d H
      have hy' : today.year < (y0 + 1) + (fuel : Int) := by push_cast at hy ⊢; omega
      obtain ⟨ih1, ih2, ih3⟩ := ih (y0 + 1) hy'
      simp only [nextLoop, hb, if_true, hstep]
      refine ⟨?_, ih2, ?_⟩
      · rw [ih1]
        congr 1
        push_cast
        ring
      · intro j hj
        cases j with
        | zero => simpa using hb
        | succ j' =>
          have hih := ih3 j' (by omega)
          have harg : y0 + (((j' + 1 : Nat)) : Int) = (y0 + 1) + (j' : Int) := by push_cast; ring
          rw [harg]
          exact hih
    · rw [Bool.not_eq_true] at hb
      simp only [nextLoop, hb, Bool.false_eq_true, if_false]
      exact ⟨by simp, trivial, by omega⟩

theorem nextLoop_le (today : DDate) :
    ∀ (fuel : Nat) (c : DDate),
      (nextLoop today fuel c).2 ≤ fuel ∧
      (today.year < c.year + fuel → beforeDay (nextLoop today fuel c).1 today = false) := by
  intro fuel
  induction fuel with
  | zero =>
    intro c
    simp only [nextLoop]
    refine ⟨Nat.le_refl 0, ?_⟩
    intro hy
    push_cast at hy
    rw [Bool.eq_false_iff]
    intro hb
    rw [beforeDay_iff] at hb
    omega
  | succ fuel ih =>
    intro c
    by_cases hb : beforeDay c today = true
    · have hyear : (addYear c).year = c.year + 1 := rfl
      obtain ⟨ih1, ih2⟩ := ih (addYear c)
      simp only [nextLoop, hb, if_true]
      refine ⟨by omega, ?_⟩
      intro hy
      refine ih2 ?_
      rw [hyear]
      push_cast at hy ⊢
      omega
    · rw [Bool.not_eq_true] at hb
      simp only [nextLoop, hb, Bool.false_eq_true, if_false]
      exact ⟨by omega, fun _ => trivial⟩

theorem occFuel_big (today bd : DDate) : today.year < bd.year + occFuel today bd := by
  simp only [occFuel]
  omega

theorem isLeapYear_iff (y : Int) :
    isLeapYear y = true ↔ (y % 4 = 0 ∧ (y % 100 ≠ 0 ∨ y % 400 = 0)) := by
  simp [isLeapYear]

theorem toDays_ediv (a : DDate) :
    toDays a = 365 * (a.year - 1) + (a.year - 1) / 4 - (a.year - 1) / 100 + (a.year - 1) / 400
      + daysBeforeMonth a.year a.month + a.day := by
  unfold toDays
  rw [Int.fdiv_eq_ediv _ (by norm_num), Int.fdiv_eq_ediv _ (by norm_num),
    Int.fdiv_eq_ediv _ (by norm_num)]

theorem addMonths_calc (Y M D n j r : Int) (hj : Y * 12 + (M - 1) + n = j * 12 + r)
    (h0 : 0 ≤ r) (h12 : r < 12) :
    addMonths ⟨Y, M, D⟩ n = ⟨j, r + 1, min D (daysInMonth j (r + 1))⟩ := by
  unfold addMonths
  simp only
  rw [hj]
  have hd : (j * 12 + r).fdiv 12 = j := by
    rw [Int.fdiv_eq_ediv _ (by norm_num)]
    omega
  have hm : (j * 12 + r).fmod 12 = r := by
    rw [Int.fmod_eq_emod _ (by norm_num)]
    omega
  rw [hd, hm]

theorem toDays_step_pos_le11 (Y M D : Int) (h1 : 1 ≤ M) (h2 : M ≤ 11) (h3 : 1 ≤ D)
    (h4 : D ≤ daysInMonth Y M) :
    0 < toDays ⟨Y, M + 1, min D (daysInMonth Y (M + 1))⟩ - toDays ⟨Y, M, D⟩ := by
  rw [toDays_ediv, toDays_ediv]
  simp only
  by_cases hL : isLeapYear Y = true
  · interval_cases M <;> (norm_num [daysBeforeMonth, daysInMonth, hL] at h4 ⊢) <;> omega
  · rw [Bool.not_eq_true] at hL
    interval_cases M <;> (norm_num [daysBeforeMonth, daysInMonth, hL] at h4 ⊢) <;> omega

theorem toDays_step_pos_12 (Y D : Int) (h3 : 1 ≤ D) (h4 : D ≤ 31) :
    0 < toDays ⟨Y + 1, 1, min D (daysInMonth (Y + 1) 1)⟩ - toDays ⟨Y, 12, D⟩ := by
  rw [toDays_ediv, toDays_ediv]
  simp only
  by_cases hL : isLeapYear Y = true
  · rw [isLeapYear_iff] at hL
    norm_num [daysBeforeMonth, daysInMonth]
    omega
  · rw [Bool.not_eq_true] at hL
    have hL' : ¬ (Y % 4 = 0 ∧ (Y % 100 ≠ 0 ∨ Y % 400 = 0)) := by
      rw [← isLeapYear_iff, hL]
      simp
    norm_num [daysBeforeMonth, daysInMonth]
    omega

theorem monthDiffCore_addYears (k : Nat) (Y M D : Int) (h1 : 1 ≤ M) (h2 : M ≤ 12)
    (h3 : 1 ≤ D) (h4 : D ≤ daysInMonth Y M) :
    ∃ den : Int, 0 < den ∧
      monthDiffCore ⟨Y + (k : Int), M, D⟩ ⟨Y, M, D⟩ = (12 * (k : Int) * den, den) := by
  have hmin : min D (daysInMonth Y M) = D := min_eq_left h4
  have hanchor :
      addMonths ⟨Y + (k : Int), M, D⟩
        ((Y - (Y + (k : Int))) * 12 + (M - M)) = ⟨Y, M, D⟩ := by
    have h := addMonths_calc (Y + (k : Int)) M D ((Y - (Y + (k : Int))) * 12 + (M - M))
      Y (M - 1) (by ring) (by omega) (by omega)
    rw [h]
    have hM : M - 1 + 1 = M := by ring
    rw [hM, hmin]
  by_cases hM11 : M ≤ 11
  · have hanchor2 :
        addMonths ⟨Y + (k : Int), M, D⟩
          ((Y - (Y + (k : Int))) * 12 + (M - M) + 1) = ⟨Y, M + 1, min D (daysInMonth Y (M + 1))⟩ := by
      exact addMonths_calc (Y + (k : Int)) M D ((Y - (Y + (k : Int))) * 12 + (M - M) + 1)
        Y M (by ring) (by omega) (by omega)
    refine ⟨toDays ⟨Y, M + 1, min D (daysInMonth Y (M + 1))⟩ - toDays ⟨Y, M, D⟩,
      toDays_step_pos_le11 Y M D h1 hM11 h3 h4, ?_⟩
    simp only [monthDiffCore]
    rw [hanchor]
    rw [if_neg (by omega : ¬ (toDays ⟨Y, M, D⟩ - toDays ⟨Y, M, D⟩ < 0))]
    rw [hanchor2]
    simp only [Prod.mk.injEq]
    exact ⟨by ring, trivial⟩
  · have hM12 : M = 12 := by omega
    subst hM12
    have h4' : D ≤ 31 := by
      have : daysInMonth Y 12 = 31 := by norm_num [daysInMonth]
      omega
    have hanchor2 :
        addMonths ⟨Y + (k : Int), 12, D⟩
          ((Y - (Y + (k : Int))) * 12 + ((12 : Int) - 12) + 1) =
          ⟨Y + 1, 1, min D (daysInMonth (Y + 1) 1)⟩ := by
      have h := addMonths_calc (Y + (k : Int)) 12 D ((Y - (Y + (k : Int))) * 12 + ((12 : Int) - 12) + 1)
        (Y + 1) 0 (by ring) (by omega) (by omega)
      rw [h]
      norm_num
    refine ⟨toDays ⟨Y + 1, 1, min D (daysInMonth (Y + 1) 1)⟩ - toDays ⟨Y, 12, D⟩,
      toDays_step_pos_12 Y D h3 h4', ?_⟩
    simp only [monthDiffCore]
    rw [hanchor]
    rw [if_neg (by omega : ¬ (toDays ⟨Y, 12, D⟩ - toDays ⟨Y, 12, D⟩ < 0))]
    rw [hanchor2]
    simp only [Prod.mk.injEq]
    exact ⟨by ring, trivial⟩

theorem diffYears_addYears (k : Nat) (Y M D : Int) (h1 : 1 ≤ M) (h2 : M ≤ 12) (h3 : 1 ≤ D)
    (h4 : D ≤ daysInMonth Y M) :
    diffYears ⟨Y + (k : Int), M, D⟩ ⟨Y, M, D⟩ = k := by
  obtain ⟨den, hpos, hcore⟩ := monthDiffCore_addYears k Y M D h1 h2 h3 h4
  unfold diffYears monthDiffNumDen
  simp only
  rw [if_neg (lt_irrefl D), hcore]
  simp only
  unfold jsAbsFloorDiv
  have hk : (0 : Int) ≤ (k : Int) := Int.ofNat_nonneg k
  have hkd : ¬ (12 * (k : Int) * den < 0) := by
    have : 0 ≤ 12 * (k : Int) * den := by
      have := mul_nonneg (mul_nonneg (by norm_num : (0:Int) ≤ 12) hk) (le_of_lt hpos)
      exact this
    omega
  rw [if_neg hkd]
  have h12 : (12 : Int) * den ≠ 0 := by omega
  have hre : 12 * (k : Int) * den = (k : Int) * (12 * den) := by ring
  rw [hre]
  exact Int.mul_fdiv_cancel (k : Int) h12



theorem processVCard_isSome (today : DDate) (v : String) :
    (processVCard today v).isSome = jsIncludes v "BDAY" := by
  unfold processVCard
  by_cases h : jsIncludes v "BDAY" = true
  · rw [if_pos h, h]
    rfl
  · rw [Bool.not_eq_true] at h
    rw [h]
    simp

theorem fetchContactsModel_length (today : DDate) (rs : List String) :
    (fetchContactsModel today rs).length = rs.countP (fun s => jsIncludes s "BDAY") := by
  induction rs with
  | nil => rfl
  | cons v rest ih =>
    unfold fetchContactsModel at ih ⊢
    rw [List.countP_cons]
    cases hv : processVCard today v with
    | none =>
      have hb : jsIncludes v "BDAY" = false := by
        have h2 := processVCard_isSome today v
        rw [hv] at h2
        simpa using h2.symm
      rw [List.filterMap_cons_none hv, ih, hb]
      simp
    | some c =>
      have hb : jsIncludes v "BDAY" = true := by
        have h2 := processVCard_isSome today v
        rw [hv] at h2
        simpa using h2.symm
      rw [List.filterMap_cons_some hv, hb]
      simp [ih]

theorem processVCard_none (today : DDate) (v : String) (h : jsIncludes v "BDAY" = false) :
    processVCard today v = none := by
  unfold processVCard
  rw [h]
  simp

theorem bdayAltCapture_iso (l : List Char) (h : isoShape l = true) :
    bdayAltCapture l = some (l.take 10) := by
  cases l with
  | nil => simp [isoShape] at h
  | cons c0 t0 =>
  cases t0 with
  | nil => simp [isoShape] at h
  | cons c1 t1 =>
  cases t1 with
  | nil => simp [isoShape] at h
  | cons c2 t2 =>
  cases t2 with
  | nil => simp [isoShape] at h
  | cons c3 t3 =>
  cases t3 with
  | nil => simp [isoShape] at h
  | cons e1 t4 =>
  cases t4 with
  | nil => simp [isoShape] at h
  | cons c5 t5 =>
  cases t5 with
  | nil => simp [isoShape] at h
  | cons c6 t6 =>
  cases t6 with
  | nil => simp [isoShape] at h
  | cons e2 t7 =>
  cases t7 with
  | nil => simp [isoShape] at h
  | cons c8 t8 =>
  cases t8 with
  | nil => simp [isoShape] at h
  | cons c9 rest =>
  simp only [isoShape, Bool.and_eq_true, beq_iff_eq] at h
  obtain ⟨⟨⟨⟨⟨⟨⟨⟨⟨hd0, hd1⟩, hd2⟩, hd3⟩, hh1⟩, hd5⟩, hd6⟩, hh2⟩, hd8⟩, hd9⟩ := h
  subst hh1
  subst hh2
  have hmd : ('-' : Char).isDigit = false := rfl
  have hne : (('-' : Char) == c0) = false := by
    cases hc : (('-' : Char) == c0) with
    | false => rfl
    | true =>
      rw [beq_iff_eq] at hc
      rw [← hc] at hd0
      exact absurd hd0 (by simp [hmd])
  simp [bdayAltCapture, digitRun, leadMatch, List.take, hd0, hd1, hd2, hd3, hd5, hd6, hd8, hd9,
    hmd, hne]

/-- C1 (amended): for a canonical birthday that is not Feb 29, whose birth
year (the current year for `--MMDD` inputs) does not lie after the reference
date's year, the computed next occurrence is on or after `today` under
date-only comparison, keeps the birthday's month-day, and no month-day match
on or after `today` lies strictly before it — it is the earliest such match.
The original claim fails for Feb-29 birthdays, whose occurrence is clamped to
Feb 28, and for birth years after `today`'s year. -/
theorem c1_next_occurrence_on_or_after_and_earliest
    (yb m d ty tm td y' : Int)
    (_h1 : 1 ≤ m) (_h2 : m ≤ 12) (_h3 : 1 ≤ d) (h4 : d ≤ daysInMonth yb m)
    (h5 : ¬ (m = 2 ∧ d = 29)) (h6 : yb ≤ ty)
    (h7 : beforeDay ⟨y', m, d⟩ ⟨ty, tm, td⟩ = false) :
    beforeDay (nextOccurrence ⟨ty, tm, td⟩ ⟨yb, m, d⟩).1 ⟨ty, tm, td⟩ = false ∧
    (nextOccurrence ⟨ty, tm, td⟩ ⟨yb, m, d⟩).1.month = m ∧
    (nextOccurrence ⟨ty, tm, td⟩ ⟨yb, m, d⟩).1.day = d ∧
    beforeDay ⟨y', m, d⟩ (nextOccurrence ⟨ty, tm, td⟩ ⟨yb, m, d⟩).1 = false := by
  have H := daysInMonth_ge yb m d h4 h5
  obtain ⟨hr, hstop, hmin⟩ := nextLoop_spec ⟨ty, tm, td⟩ m d H
    (occFuel ⟨ty, tm, td⟩ ⟨yb, m, d⟩) yb (occFuel_big ⟨ty, tm, td⟩ ⟨yb, m, d⟩)
  unfold nextOccurrence
  refine ⟨hstop, ?_, ?_, ?_⟩
  · rw [hr]
  · rw [hr]
  · rw [hr]
    rw [Bool.eq_false_iff]
    intro hb
    rw [beforeDay_iff] at hb
    simp only at hb
    have hy' : y' < yb + ((nextLoop ⟨ty, tm, td⟩ (occFuel ⟨ty, tm, td⟩ ⟨yb, m, d⟩) ⟨yb, m, d⟩).2 : Int) := by
      omega
    by_cases hcase : y' < yb
    · have hbt : beforeDay ⟨y', m, d⟩ ⟨ty, tm, td⟩ = true := by
        rw [beforeDay_iff]
        left
        simp only
        omega
      rw [h7] at hbt
      exact absurd hbt (by simp)
    · have hj := hmin (y' - yb).toNat (by omega)
      have harg : yb + (((y' - yb).toNat : Nat) : Int) = y' := by omega
      rw [harg] at hj
      rw [h7] at hj
      exact absurd hj (by simp)

/-- Witness for the C1 theorem at birthday 1990-06-15 and today 2024-06-01:
the hypotheses hold and the next occurrence is 2024-06-15, the earliest
June 15 on or after today. -/
theorem c1_witness :
    ((1 : Int) ≤ 6 ∧ (6 : Int) ≤ 12 ∧ (1 : Int) ≤ 15 ∧ (15 : Int) ≤ daysInMonth 1990 6 ∧
      ¬ ((6 : Int) = 2 ∧ (15 : Int) = 29) ∧ (1990 : Int) ≤ 2024 ∧
      beforeDay ⟨2025, 6, 15⟩ ⟨2024, 6, 1⟩ = false) ∧
    (beforeDay (nextOccurrence ⟨2024, 6, 1⟩ ⟨1990, 6, 15⟩).1 ⟨2024, 6, 1⟩ = false ∧
      (nextOccurrence ⟨2024, 6, 1⟩ ⟨1990, 6, 15⟩).1.month = 6 ∧
      (nextOccurrence ⟨2024, 6, 1⟩ ⟨1990, 6, 15⟩).1.day = 15 ∧
      beforeDay ⟨2025, 6, 15⟩ (nextOccurrence ⟨2024, 6, 1⟩ ⟨1990, 6, 15⟩).1 = false) :=
  ⟨⟨by decide, by decide, by decide, by decide, by decide, by decide, by decide⟩,
    c1_next_occurrence_on_or_after_and_earliest 1990 6 15 2024 6 1 2025
      (by decide) (by decide) (by decide) (by decide) (by decide) (by decide) (by decide)⟩

/-- Counterexample to C1 as stated: for the canonical birthday 1992-02-29 and
today 2024-01-15, the computed occurrence is 2024-02-28, whose day is not 29,
so it does not match the birthday's month-day even though a matching date
(2024-02-29, a leap day not before today) exists. -/
theorem c1_counterexample_feb29 :
    (nextOccurrence ⟨2024, 1, 15⟩ ⟨1992, 2, 29⟩).1 = ⟨2024, 2, 28⟩ ∧
    ¬ ((nextOccurrence ⟨2024, 1, 15⟩ ⟨1992, 2, 29⟩).1.day = 29) ∧
    beforeDay ⟨2024, 2, 29⟩ ⟨2024, 1, 15⟩ = false := by
  decide

/-- C2: the claim that a failed refresh leaves the cached feed untouched.
The code violates it: `fetchContacts` catches every error internally and
resolves with `[]`, so `updateCache`'s success branch runs and overwrites the
previously cached feed with the serialization of the empty contact list.
This theorem evaluates the model at the failing input: after a successful
first refresh (one contact), a second refresh whose directory fetch errors
replaces the cache with the event-free feed, which differs from the first
feed. -/
theorem c2_failed_refresh_overwrites_cache :
    updateCache ⟨2024, 6, 1⟩ FetchOutcome.err
        (some (getICSStringModel
          (fetchContactsTop ⟨2024, 6, 1⟩ (FetchOutcome.ok ["FN:Ann\nBDAY:1990-06-15"])))) =
      some (getICSStringModel []) ∧
    getICSStringModel [] ≠
      getICSStringModel (fetchContactsTop ⟨2024, 6, 1⟩ (FetchOutcome.ok ["FN:Ann\nBDAY:1990-06-15"])) ∧
    countSub "BEGIN:VEVENT".toList
        (getICSStringModel
          (fetchContactsTop ⟨2024, 6, 1⟩ (FetchOutcome.ok ["FN:Ann\nBDAY:1990-06-15"]))).toList = 1 := by
  refine ⟨rfl, ?_, ?_⟩ <;> decide

/-- C3 (amended): the candidate date starts in the year encoded by the
birthday value (only `--MMDD` inputs start in the current calendar year), and
the year-advancement loop performs at most `max 0 (today.year + 1 − startYear)`
steps before stopping at a candidate not before `today`; for `--MMDD` inputs
this bound instantiates to 1 advancement.  The original "at most 2 iterations"
fails for dated birthdays, which start in the birth year. -/
theorem c3_loop_iteration_bound (ty tm td yb m d : Int) :
    (nextOccurrence ⟨ty, tm, td⟩ ⟨yb, m, d⟩).2 ≤ (ty + 1 - yb).toNat ∧
    beforeDay (nextOccurrence ⟨ty, tm, td⟩ ⟨yb, m, d⟩).1 ⟨ty, tm, td⟩ = false := by
  obtain ⟨hA, hB⟩ := nextLoop_le ⟨ty, tm, td⟩ (occFuel ⟨ty, tm, td⟩ ⟨yb, m, d⟩) ⟨yb, m, d⟩
  unfold nextOccurrence
  exact ⟨hA, hB (occFuel_big ⟨ty, tm, td⟩ ⟨yb, m, d⟩)⟩

/-- Counterexample to C3 as stated: for birthday 1990-01-01 and today
2024-06-01 the loop performs 35 year-advancement steps (not at most 2), and
the initial candidate year 1990 is not the year containing today. -/
theorem c3_counterexample_35_iterations :
    (nextOccurrence ⟨2024, 6, 1⟩ ⟨1990, 1, 1⟩).2 = 35 ∧
    ¬ ((nextOccurrence ⟨2024, 6, 1⟩ ⟨1990, 1, 1⟩).2 ≤ 2) ∧
    (1990 : Int) ≠ 2024 := by
  decide

/-- C4 (amended): a record whose text does not contain the substring `BDAY`
is excluded from the extractor's output, and processing always continues past
every record: the output has exactly one contact per `BDAY`-containing
record.  The original claim's second half fails: a record whose `BDAY` value
does not match the pattern is still included (see the counterexample). -/
theorem c4_records_without_bday_excluded (today : DDate) (rs : List String) (v : String)
    (h : jsIncludes v "BDAY" = false) :
    processVCard today v = none ∧
    (fetchContactsModel today rs).length = rs.countP (fun s => jsIncludes s "BDAY") :=
  ⟨processVCard_none today v h, fetchContactsModel_length today rs⟩

/-- Witness for the C4 theorem: a record with no `BDAY` text is skipped while
a two-record list (one valid, one without `BDAY`) yields exactly one contact. -/
theorem c4_witness :
    jsIncludes "NOTE:x" "BDAY" = false ∧
    (processVCard ⟨2024, 6, 1⟩ "NOTE:x" = none ∧
      (fetchContactsModel ⟨2024, 6, 1⟩ ["FN:Ann\nBDAY:1990-06-15", "NOTE:x"]).length =
        (["FN:Ann\nBDAY:1990-06-15", "NOTE:x"] : List String).countP
          (fun s => jsIncludes s "BDAY")) :=
  ⟨by decide,
    c4_records_without_bday_excluded ⟨2024, 6, 1⟩ ["FN:Ann\nBDAY:1990-06-15", "NOTE:x"]
      "NOTE:x" (by decide)⟩

/-- Counterexample to C4 as stated: the record `FN:Bob\nBDAY:junk` has a
malformed birthday value, yet it is not excluded — it is pushed with an empty
birthday string, an invalid next-birthday date and a NaN age. -/
theorem c4_counterexample_malformed_included :
    processVCard ⟨2024, 6, 1⟩ "FN:Bob\nBDAY:junk" = some ⟨"Bob", "", none, none⟩ := by
  decide

/-- C5 (amended): the extractor's only birthday validation is the regex's
digit-shape alternation; no `NormalizationError` exists and no range check is
performed.  Every value with the `\d{4}-\d{2}-\d{2}` shape is captured
unchanged, whatever its digits — month and day outside the calendar ranges
are accepted.  The original claim fails because a month outside [1,12] does
not cause a failure (see the counterexample). -/
theorem c5_shape_only_validation (v : String) (h : isoShape v.toList = true) :
    bdayAltCapture v.toList = some (v.toList.take 10) :=
  bdayAltCapture_iso v.toList h

/-- Witness for the C5 theorem at the out-of-range value `1990-13-40`: it has
the accepted shape and is captured as-is. -/
theorem c5_witness :
    isoShape "1990-13-40".toList = true ∧
    bdayAltCapture "1990-13-40".toList = some ("1990-13-40".toList.take 10) :=
  ⟨by decide, c5_shape_only_validation "1990-13-40" (by decide)⟩

/-- Counterexample to C5 as stated: normalization of `1990-13-40` (month 13)
succeeds instead of failing — the record is extracted with that birthday
string and a successfully computed (rolled-over) next-birthday date. -/
theorem c5_counterexample_month13_accepted :
    (processVCard ⟨2024, 6, 1⟩ "FN:Ann\nBDAY:1990-13-40").map Contact.birthday =
      some "1990-13-40" ∧
    (processVCard ⟨2024, 6, 1⟩ "FN:Ann\nBDAY:1990-13-40").map
      (fun c => c.nextBirthday.isSome) = some true := by
  decide

/-- C6 (amended): for a known birth year and a canonical birthday other than
Feb 29, the reported age is a non-negative integer equal to the occurrence
date's year minus the birth year.  The original claim fails for Feb-29
birthdays, where the clamped Feb-28 occurrence can make `diff(.., 'years')`
one less than the year difference (see the counterexample). -/
theorem c6_age_year_difference (yb m d ty tm td : Int) (h1 : 1 ≤ m) (h2 : m ≤ 12)
    (h3 : 1 ≤ d) (h4 : d ≤ daysInMonth yb m) (h5 : ¬ (m = 2 ∧ d = 29)) :
    ageOf ⟨ty, tm, td⟩ ⟨yb, m, d⟩ = (nextOccurrence ⟨ty, tm, td⟩ ⟨yb, m, d⟩).1.year - yb ∧
    0 ≤ ageOf ⟨ty, tm, td⟩ ⟨yb, m, d⟩ := by
  have H := daysInMonth_ge yb m d h4 h5
  obtain ⟨hr, hstop, hmin⟩ := nextLoop_spec ⟨ty, tm, td⟩ m d H
    (occFuel ⟨ty, tm, td⟩ ⟨yb, m, d⟩) yb (occFuel_big ⟨ty, tm, td⟩ ⟨yb, m, d⟩)
  unfold ageOf nextOccurrence
  rw [hr]
  rw [diffYears_addYears ((nextLoop ⟨ty, tm, td⟩ (occFuel ⟨ty, tm, td⟩ ⟨yb, m, d⟩) ⟨yb, m, d⟩).2)
    yb m d h1 h2 h3 h4]
  simp only
  omega

/-- Witness for the C6 theorem at birthday 1990-06-15 and today 2024-06-01:
the age is 34 = 2024 − 1990 and non-negative. -/
theorem c6_witness :
    ((1 : Int) ≤ 6 ∧ (6 : Int) ≤ 12 ∧ (1 : Int) ≤ 15 ∧ (15 : Int) ≤ daysInMonth 1990 6 ∧
      ¬ ((6 : Int) = 2 ∧ (15 : Int) = 29)) ∧
    (ageOf ⟨2024, 6, 1⟩ ⟨1990, 6, 15⟩ =
        (nextOccurrence ⟨2024, 6, 1⟩ ⟨1990, 6, 15⟩).1.year - 1990 ∧
      0 ≤ ageOf ⟨2024, 6, 1⟩ ⟨1990, 6, 15⟩) :=
  ⟨⟨by decide, by decide, by decide, by decide, by decide⟩,
    c6_age_year_difference 1990 6 15 2024 6 1
      (by decide) (by decide) (by decide) (by decide) (by decide)⟩

/-- Counterexample to C6 as stated: for birthday 1992-02-29 and today
2024-01-15, the occurrence is 2024-02-28 and the reported age is 31, not
`candidate.year - birthYear = 32`. -/
theorem c6_counterexample_feb29_age :
    ageOf ⟨2024, 1, 15⟩ ⟨1992, 2, 29⟩ = 31 ∧
    ¬ (ageOf ⟨2024, 1, 15⟩ ⟨1992, 2, 29⟩ =
        (nextOccurrence ⟨2024, 1, 15⟩ ⟨1992, 2, 29⟩).1.year - 1992) := by
  decide

/-- C7 (amended): with today = 2024-06-01, the extraction-plus-occurrence
pipeline maps `--0615` to next occurrence 2024-06-15 with age 0 (not an
unknown age — see the counterexample), `1990-06-15` to 2024-06-15 with age
34, and `1990-01-01` to 2025-01-01 with age 35. -/
theorem c7_concrete_scenarios :
    processVCard ⟨2024, 6, 1⟩ "FN:A\nBDAY:--0615" =
      some ⟨"A", "--0615", some ⟨2024, 6, 15⟩, some 0⟩ ∧
    processVCard ⟨2024, 6, 1⟩ "FN:B\nBDAY:1990-06-15" =
      some ⟨"B", "1990-06-15", some ⟨2024, 6, 15⟩, some 34⟩ ∧
    processVCard ⟨2024, 6, 1⟩ "FN:C\nBDAY:1990-01-01" =
      some ⟨"C", "1990-01-01", some ⟨2025, 1, 1⟩, some 35⟩ := by
  decide

/-- Counterexample to C7 as stated: the `--0615` record does not get a
null-or-unknown age — the code computes the definite age 0 for it (a NaN age
would be `none` in the model). -/
theorem c7_counterexample_age_zero :
    (processVCard ⟨2024, 6, 1⟩ "FN:A\nBDAY:--0615").map Contact.age = some (some 0) := by
  decide

/-- C9: serializing the empty occurrence list produces a structurally valid,
event-free calendar document (proper `VCALENDAR` wrapper with the calendar
name, zero `VEVENT` blocks), not an error.  The serializer of the external
`ics` library is modelled from the spec (see `createEventsModel`). -/
theorem c9_empty_feed_valid :
    strStarts (getICSStringModel []) "BEGIN:VCALENDAR" = true ∧
    strEnds (getICSStringModel []) "END:VCALENDAR\r\n" = true ∧
    countSub "BEGIN:VEVENT".toList (getICSStringModel []).toList = 0 ∧
    jsIncludes (getICSStringModel []) "X-WR-CALNAME:Geburtstage" = true := by
  decide

/-- C10: for a Feb-29 birthday with a known (leap) birth year whose birth
date lies before today, the year-advancement loop clamps the candidate to
Feb 28 in the first non-leap year and keeps it there, so the computed next
occurrence falls on Feb 28 — never again on Feb 29, even in leap target
years. -/
theorem c10_feb29_clamped_to_feb28 (yb ty tm td : Int) (hl : isLeapYear yb = true)
    (hb : beforeDay ⟨yb, 2, 29⟩ ⟨ty, tm, td⟩ = true) :
    (nextOccurrence ⟨ty, tm, td⟩ ⟨yb, 2, 29⟩).1.month = 2 ∧
    (nextOccurrence ⟨ty, tm, td⟩ ⟨yb, 2, 29⟩).1.day = 28 := by
  have hyb : yb ≤ ty := by
    rw [beforeDay_iff] at hb
    simp only at hb
    omega
  have hf : occFuel ⟨ty, tm, td⟩ ⟨yb, 2, 29⟩ = (ty - yb).toNat + 1 := by
    unfold occFuel
    simp only
    omega
  unfold nextOccurrence
  rw [hf]
  have hstep : addYear ⟨yb, 2, 29⟩ = ⟨yb + 1, 2, 28⟩ := by
    unfold addYear
    simp only
    have hnl : isLeapYear (yb + 1) = false := by
      rw [isLeapYear_iff] at hl
      have hno : ¬ ((yb + 1) % 4 = 0 ∧ ((yb + 1) % 100 ≠ 0 ∨ (yb + 1) % 400 = 0)) := by omega
      cases hcase : isLeapYear (yb + 1) with
      | false => rfl
      | true => exact absurd ((isLeapYear_iff (yb + 1)).mp hcase) hno
    have hdm : daysInMonth (yb + 1) 2 = 28 := by
      unfold daysInMonth
      rw [if_pos rfl, hnl]
      norm_num
    rw [hdm]
    norm_num
  simp only [nextLoop, hb, if_true, hstep]
  have H28 : ∀ y'' : Int, (28 : Int) ≤ daysInMonth y'' 2 := by
    intro y''
    unfold daysInMonth
    split_ifs <;> omega
  obtain ⟨hr, hstop, hmin⟩ := nextLoop_spec ⟨ty, tm, td⟩ 2 28 H28 ((ty - yb).toNat) (yb + 1)
    (by simp only; omega)
  rw [hr]
  exact ⟨rfl, rfl⟩

/-- Witness for the C10 theorem: birth date 1992-02-29, today 2024-01-15 —
the next occurrence computed is 2024-02-28 although 2024 is a leap year. -/
theorem c10_witness :
    (isLeapYear 1992 = true ∧ beforeDay ⟨1992, 2, 29⟩ ⟨2024, 1, 15⟩ = true) ∧
    ((nextOccurrence ⟨2024, 1, 15⟩ ⟨1992, 2, 29⟩).1.month = 2 ∧
      (nextOccurrence ⟨2024, 1, 15⟩ ⟨1992, 2, 29⟩).1.day = 28) :=
  ⟨⟨by decide, by decide⟩,
    c10_feb29_clamped_to_feb28 1992 2024 1 15 (by decide) (by decide)⟩
